import Mathlib

/-!
Verification of the Hive agent system (shallow embedding).

Source files embedded here:
  - src/hive/agent/context.py   (SharedContext)
  - src/hive/agent/agent.py     (respond decision, tool-call parsing)
  - src/hive/tools/registry.py  (ToolRegistry, permissions)
  - src/hive/tools/executor.py  (ToolExecutor.run, _handle_schedule)
  - src/hive/tools/scheduler.py (ScheduleStore, next-run computation)
  - src/hive/agent/manager.py   (setup-time tool registration)

Python dicts are modelled as insertion-ordered association lists, Python
sets as lists with membership, datetimes as a record of calendar fields,
and nondeterministic inputs (wall-clock timestamps) as explicit
parameters.
-/

namespace Hive

/-- One entry of `SharedContext.messages` (context.py builds a dict with
keys role, content, name, timestamp). -/
structure Message where
  role : String
  content : String
  name : String
  timestamp : String
deriving DecidableEq, Repr

/-- State of `SharedContext` (context.py): the ordered message log and the
set of already-seen dedup ids (modelled as a list with membership). -/
structure SharedContext where
  messages : List Message
  seen_message_ids : List String
deriving DecidableEq, Repr

/-- Embedding of `SharedContext.add_message` (context.py lines 14-32).
`timestamp` stands for the `datetime.now().isoformat()` value and is an
explicit parameter. -/
def SharedContext.add_message (ctx : SharedContext) (role content name timestamp : String)
    (message_id : Option String) : SharedContext :=
  match message_id with
  | some mid =>
      if mid ∈ ctx.seen_message_ids then ctx
      else
        { messages := ctx.messages ++ [⟨role, content, name, timestamp⟩],
          seen_message_ids := ctx.seen_message_ids ++ [mid] }
  | none =>
      { ctx with messages := ctx.messages ++ [⟨role, content, name, timestamp⟩] }

/-- C1: adding a message whose dedup id was already seen changes neither the
message log nor the seen-id set; adding a message with an unseen (or absent)
id appends exactly one message, keeping all earlier messages in place; in
particular adding the same (content, id) pair twice grows the history by one
message, not two. -/
theorem add_message_dedup :
    (∀ (ctx : SharedContext) (role content name ts mid : String),
      mid ∈ ctx.seen_message_ids →
      ctx.add_message role content name ts (some mid) = ctx) ∧
    (∀ (ctx : SharedContext) (role content name ts : String) (mid : Option String),
      (∀ m : String, mid = some m → m ∉ ctx.seen_message_ids) →
      (ctx.add_message role content name ts mid).messages.length
        = ctx.messages.length + 1 ∧
      (ctx.add_message role content name ts mid).messages.take ctx.messages.length
        = ctx.messages) ∧
    (∀ (ctx : SharedContext) (role content name ts ts2 mid : String),
      mid ∉ ctx.seen_message_ids →
      ((ctx.add_message role content name ts (some mid)).add_message
          role content name ts2 (some mid)).messages.length
        = ctx.messages.length + 1) := by
  refine ⟨?_, ?_, ?_⟩
  · intro ctx role content name ts mid h
    simp [SharedContext.add_message, h]
  · intro ctx role content name ts mid h
    cases mid with
    | none => simp [SharedContext.add_message]
    | some m =>
        have hm : m ∉ ctx.seen_message_ids := h m rfl
        simp [SharedContext.add_message, hm]
  · intro ctx role content name ts ts2 mid h
    simp [SharedContext.add_message, h]

/-- Concrete instance of `add_message_dedup`: a second add with the same id
leaves the log at length 1. -/
theorem add_message_dedup_witness :
    (("x" : String) ∉ (SharedContext.mk [] []).seen_message_ids) ∧
    (((SharedContext.mk [] []).add_message "user" "hi" "alice" "t1"
        (some "x")).add_message "user" "hi" "alice" "t2"
        (some "x")).messages.length = 0 + 1 :=
  ⟨by decide, add_message_dedup.2.2 (SharedContext.mk [] [])
    "user" "hi" "alice" "t1" "t2" "x" (by decide)⟩

/-- Tool descriptor (config/schema.py `ToolConfig`). -/
structure ToolConfig where
  name : String
  enabled : Bool
  mcp_server_url : Option String
  permissions : List String
deriving DecidableEq, Repr

/-- Python-dict assignment `d[k] = v` on an insertion-ordered association
list: an existing key keeps its position and gets the new value, a new key
is appended at the end. -/
def dictInsert {β : Type} : List (String × β) → String → β → List (String × β)
  | [], k, v => [(k, v)]
  | (k0, v0) :: rest, k, v =>
      if k0 = k then (k, v) :: rest else (k0, v0) :: dictInsert rest k v

/-- Python-dict lookup `d.get(k)`. -/
def dictGet {β : Type} : List (String × β) → String → Option β
  | [], _ => none
  | (k0, v0) :: rest, k => if k0 = k then some v0 else dictGet rest k

/-- State of `ToolRegistry` (registry.py): `self.tools` is a Python dict. -/
structure ToolRegistry where
  tools : List (String × ToolConfig)
deriving DecidableEq, Repr

/-- Embedding of `ToolRegistry.register` (registry.py lines 14-15):
`self.tools[tool_config.name] = tool_config`. -/
def ToolRegistry.register (reg : ToolRegistry) (tool_config : ToolConfig) : ToolRegistry :=
  ⟨dictInsert reg.tools tool_config.name tool_config⟩

/-- Embedding of `ToolRegistry.get_tool` (registry.py lines 17-18). -/
def ToolRegistry.get_tool (reg : ToolRegistry) (name : String) : Option ToolConfig :=
  dictGet reg.tools name

/-- Setup-time registration step (manager.py lines 28-30): register a tool
only when its name is not yet present. -/
def ToolRegistry.register_at_setup (reg : ToolRegistry) (tool : ToolConfig) : ToolRegistry :=
  match reg.get_tool tool.name with
  | none => reg.register tool
  | some _ => reg

/-- Embedding of `ToolRegistry.has_permission` (registry.py lines 20-30).
`agent_name` is accepted and unused, as in the source. -/
def ToolRegistry.has_permission (_reg : ToolRegistry) (_agent_name tool_name action : String)
    (agent_tools : List ToolConfig) : Bool :=
  match agent_tools.find? (fun item => item.name == tool_name) with
  | none => false
  | some tool => if !tool.enabled then false else tool.permissions.contains action

/-- Outcome of `ToolExecutor.run` (executor.py lines 24-44): `denied` is the
permission-gate `return None`; `schedule` is the local `_handle_schedule`
branch; `bridge` is the `mcp_bridge.execute` dispatch. -/
inductive RunOutcome where
  | denied
  | schedule (agent_name : String) (params : List (String × String))
  | bridge (tool_name action : String) (params : List (String × String))
deriving DecidableEq, Repr

/-- Embedding of the control flow of `ToolExecutor.run` (executor.py lines
24-44). `has_store` models `self.schedule_store is not None`. -/
def ToolExecutor.run (registry : ToolRegistry) (has_store : Bool) (agent_name : String)
    (agent_tools : List ToolConfig) (tool_name action : String)
    (params : List (String × String)) : RunOutcome :=
  let allowed :=
    if tool_name == "schedule" then true
    else registry.has_permission agent_name tool_name action agent_tools
  if !allowed then RunOutcome.denied
  else if tool_name == "schedule" && has_store then RunOutcome.schedule agent_name params
  else RunOutcome.bridge tool_name action params

/-- Lookup after a dict assignment with the same key yields the assigned
value. -/
theorem dictGet_dictInsert_self {β : Type} (d : List (String × β)) (k : String) (v : β) :
    dictGet (dictInsert d k v) k = some v := by
  induction d with
  | nil => simp [dictInsert, dictGet]
  | cons hd tl ih =>
      obtain ⟨k0, v0⟩ := hd
      by_cases hk : k0 = k <;> simp [dictInsert, dictGet, hk, ih]

/-- Characterization of `has_permission` as a first-match condition. -/
theorem has_permission_iff_first_match (reg : ToolRegistry) (agent_name tool_name action : String)
    (agent_tools : List ToolConfig) :
    reg.has_permission agent_name tool_name action agent_tools = true ↔
      ∃ i, ∃ h : i < agent_tools.length,
        (agent_tools.get ⟨i, h⟩).name = tool_name ∧
        (agent_tools.get ⟨i, h⟩).enabled = true ∧
        action ∈ (agent_tools.get ⟨i, h⟩).permissions ∧
        ∀ j (hj : j < agent_tools.length), j < i →
          (agent_tools.get ⟨j, hj⟩).name ≠ tool_name := by
  unfold ToolRegistry.has_permission
  simp only [List.get_eq_getElem]
  constructor
  · intro h
    rcases hfind : agent_tools.find? (fun item => item.name == tool_name) with _ | tool
    · rw [hfind] at h; simp at h
    · rw [hfind] at h
      rcases List.find?_eq_some_iff_getElem.mp hfind with ⟨hp, i, hi, hgi, hbefore⟩
      have hpn : tool.name = tool_name := by simpa using hp
      by_cases he : tool.enabled
      · refine ⟨i, hi, ?_, ?_, ?_, ?_⟩
        · rw [hgi, hpn]
        · rw [hgi, he]
        · rw [hgi]
          simpa [he] using h
        · intro j hj hji
          have hb := hbefore j hji
          intro hcon
          rw [hcon] at hb
          simp at hb
      · simp [he] at h
  · rintro ⟨i, hi, hname, hen, hperm, hbefore⟩
    have hfind : agent_tools.find? (fun item => item.name == tool_name)
        = some agent_tools[i] := by
      apply List.find?_eq_some_iff_getElem.mpr
      refine ⟨by simp [hname], i, hi, rfl, ?_⟩
      intro j hji
      have hjlen : j < agent_tools.length := Nat.lt_trans hji hi
      have hb := hbefore j hjlen hji
      simpa using hb
    rw [hfind]
    simp [hen, hperm]

/-- C3 (amended): a tool call gets past the permission gate of
`ToolExecutor.run` iff the tool is the schedule pseudo-tool or the first
entry of the agent's tool list bearing the requested name is enabled and
lists the action among its permissions; otherwise `run` yields the denied
(null) outcome without dispatching anything. -/
theorem run_authorization (registry : ToolRegistry) (has_store : Bool)
    (agent_name tool_name action : String) (agent_tools : List ToolConfig)
    (params : List (String × String)) :
    ToolExecutor.run registry has_store agent_name agent_tools tool_name action params
        ≠ RunOutcome.denied
      ↔ (tool_name = "schedule" ∨
          ∃ i, ∃ h : i < agent_tools.length,
            (agent_tools.get ⟨i, h⟩).name = tool_name ∧
            (agent_tools.get ⟨i, h⟩).enabled = true ∧
            action ∈ (agent_tools.get ⟨i, h⟩).permissions ∧
            ∀ j (hj : j < agent_tools.length), j < i →
              (agent_tools.get ⟨j, hj⟩).name ≠ tool_name) := by
  have hgate :
      ToolExecutor.run registry has_store agent_name agent_tools tool_name action params
          ≠ RunOutcome.denied
        ↔ (tool_name = "schedule" ∨
            registry.has_permission agent_name tool_name action agent_tools = true) := by
    unfold ToolExecutor.run
    by_cases hs : tool_name = "schedule"
    · subst hs
      by_cases hstore : has_store <;> simp [hstore]
    · by_cases hp : registry.has_permission agent_name tool_name action agent_tools
      · simp [hs, hp]
      · simp [hs, Bool.not_eq_true _ ▸ hp]
  exact hgate.trans (or_congr Iff.rfl
    (has_permission_iff_first_match registry agent_name tool_name action agent_tools))

/-- C3 counterexample to the claim as stated: the agent's tool list contains
an enabled entry named "t" permitting action "a" (the second entry), yet the
call is not authorized, because the first entry named "t" is disabled. -/
theorem run_authorization_counterexample :
    (ToolConfig.mk "t" true none ["a"]) ∈
        [ToolConfig.mk "t" false none [], ToolConfig.mk "t" true none ["a"]] ∧
    (ToolConfig.mk "t" true none ["a"]).name = "t" ∧
    (ToolConfig.mk "t" true none ["a"]).enabled = true ∧
    "a" ∈ (ToolConfig.mk "t" true none ["a"]).permissions ∧
    ToolRegistry.has_permission ⟨[]⟩ "alice" "t" "a"
        [ToolConfig.mk "t" false none [], ToolConfig.mk "t" true none ["a"]] = false ∧
    ToolExecutor.run ⟨[]⟩ true "alice"
        [ToolConfig.mk "t" false none [], ToolConfig.mk "t" true none ["a"]]
        "t" "a" [] = RunOutcome.denied := by
  refine ⟨by decide, rfl, rfl, by decide, by decide, by decide⟩

/-- C6: at setup time, registering a tool whose name is already registered
leaves the registry entirely unchanged; after registering a fresh name and
then a duplicate, lookup returns the first descriptor. -/
theorem register_first_wins :
    (∀ (reg : ToolRegistry) (tool t0 : ToolConfig),
      reg.get_tool tool.name = some t0 → reg.register_at_setup tool = reg) ∧
    (∀ (reg : ToolRegistry) (tool tool2 : ToolConfig),
      reg.get_tool tool.name = none → tool2.name = tool.name →
      ((reg.register_at_setup tool).register_at_setup tool2).get_tool tool.name
          = some tool ∧
      (reg.register_at_setup tool).register_at_setup tool2
          = reg.register_at_setup tool) := by
  constructor
  · intro reg tool t0 h
    unfold ToolRegistry.register_at_setup
    rw [h]
  · intro reg tool tool2 h h2
    have hreg : reg.register_at_setup tool = reg.register tool := by
      unfold ToolRegistry.register_at_setup
      rw [h]
    have hlook : (reg.register tool).get_tool tool.name = some tool :=
      dictGet_dictInsert_self reg.tools tool.name tool
    have hstep : (reg.register tool).register_at_setup tool2 = reg.register tool := by
      unfold ToolRegistry.register_at_setup
      rw [h2, hlook]
    refine ⟨?_, ?_⟩
    · rw [hreg, hstep, hlook]
    · rw [hreg, hstep]

/-- Concrete instance of `register_first_wins`: registering "t" twice keeps
the first descriptor. -/
theorem register_first_wins_witness :
    (ToolRegistry.mk []).get_tool (ToolConfig.mk "t" true none []).name = none ∧
    (ToolConfig.mk "t" false none ["x"]).name = (ToolConfig.mk "t" true none []).name ∧
    (((ToolRegistry.mk []).register_at_setup (ToolConfig.mk "t" true none
        [])).register_at_setup (ToolConfig.mk "t" false none ["x"])).get_tool
        (ToolConfig.mk "t" true none []).name = some (ToolConfig.mk "t" true none []) :=
  ⟨by decide, by decide,
    (register_first_wins.2 (ToolRegistry.mk []) (ToolConfig.mk "t" true none [])
      (ToolConfig.mk "t" false none ["x"]) (by decide) (by decide)).1⟩

/-- Boolean test that `needle` occurs at the start of `hay`. -/
def startsWith : List Char → List Char → Bool
  | [], _ => true
  | _ :: _, [] => false
  | c :: cs, h :: hs => c == h && startsWith cs hs

/-- Boolean test that `needle` occurs somewhere in `hay` (Python `in` on
strings). -/
def containsSub (needle : List Char) : List Char → Bool
  | [] => startsWith needle []
  | c :: t => startsWith needle (c :: t) || containsSub needle t

/-- Embedding of the respond decision of `Agent.on_message` (agent.py lines
44-54). `judgment` stands for the awaited result of `should_respond`
(the LLM yes/no call); `none` models the early `return None` of the
self-filter. -/
def respond_decision (name message sender : String) (respond_override : Option Bool)
    (judgment : Bool) : Option Bool :=
  if sender == name then none
  else
    match respond_override with
    | none =>
        if containsSub ('@' :: name.data) message.data then some true
        else some judgment
    | some b => some b

/-- C9: when a respond override is supplied by the caller, it alone decides
the outcome, for every message and every outcome of the mention check and
of the yes/no judgment; without an override, the mention check decides
first and the judgment is consulted only when the mention check fails. -/
theorem respond_override_priority :
    (∀ (name message sender : String) (b judgment : Bool),
      sender ≠ name →
      respond_decision name message sender (some b) judgment = some b) ∧
    (∀ (name message sender : String) (judgment : Bool),
      sender ≠ name →
      containsSub ('@' :: name.data) message.data = true →
      respond_decision name message sender none judgment = some true) ∧
    (∀ (name message sender : String) (judgment : Bool),
      sender ≠ name →
      containsSub ('@' :: name.data) message.data = false →
      respond_decision name message sender none judgment = some judgment) := by
  refine ⟨?_, ?_, ?_⟩
  · intro name message sender b judgment hs
    simp [respond_decision, hs]
  · intro name message sender judgment hs hm
    simp [respond_decision, hs, hm]
  · intro name message sender judgment hs hm
    simp [respond_decision, hs, hm]

/-- Concrete instance of `respond_override_priority`: an override of `false`
suppresses a reply even though the agent is mentioned, and an override of
`true` forces one even though the judgment is negative. -/
theorem respond_override_priority_witness :
    ("bob" : String) ≠ "alice" ∧
    respond_decision "alice" "hey @alice" "bob" (some false) true = some false ∧
    respond_decision "alice" "hello" "bob" (some true) false = some true ∧
    containsSub ('@' :: ("alice" : String).data) ("hey @alice" : String).data = true ∧
    respond_decision "alice" "hey @alice" "bob" none false = some true :=
  ⟨by decide,
    respond_override_priority.1 "alice" "hey @alice" "bob" false true (by decide),
    respond_override_priority.1 "alice" "hello" "bob" true false (by decide),
    by decide,
    respond_override_priority.2.1 "alice" "hey @alice" "bob" false (by decide) (by decide)⟩

/-- Persisted job record (scheduler.py `ScheduledJob`). -/
structure ScheduledJob where
  job_id : String
  agent_name : String
  task : String
  schedule_type : String
  interval_minutes : Option Int
  cron : Option String
  channel_id : Option Int
  next_run : String
deriving DecidableEq, Repr

/-- Removal condition of `ScheduleStore.remove_job` (scheduler.py lines
99-101): `job.job_id == job_id and (agent_name is None or job.agent_name ==
agent_name)`. -/
def remove_job_matches (job_id : String) (agent_name : Option String)
    (job : ScheduledJob) : Bool :=
  job.job_id == job_id && (agent_name.isNone || agent_name == some job.agent_name)

/-- Loop body of `ScheduleStore.remove_job` (scheduler.py lines 94-107):
returns the `removed` flag and the `remaining` list. -/
def remove_job_loop (job_id : String) (agent_name : Option String) :
    List ScheduledJob → Bool × List ScheduledJob
  | [] => (false, [])
  | job :: rest =>
      let r := remove_job_loop job_id agent_name rest
      if remove_job_matches job_id agent_name job then (true, r.2)
      else (r.1, job :: r.2)

/-- Embedding of `ScheduleStore.remove_job` on a loaded job list. -/
def ScheduleStore.remove_job (jobs : List ScheduledJob) (job_id : String)
    (agent_name : Option String) : Bool × List ScheduledJob :=
  remove_job_loop job_id agent_name jobs

/-- Persisted store contents after `remove_job`: the code calls `save_jobs`
only when `removed` is true (scheduler.py lines 105-106). -/
def remove_job_store_after (jobs : List ScheduledJob) (job_id : String)
    (agent_name : Option String) : List ScheduledJob :=
  let r := ScheduleStore.remove_job jobs job_id agent_name
  if r.1 then r.2 else jobs

/-- C10: `remove_job` removes exactly the jobs matching the given id (and
agent name, when one is given), keeping the others in their original order;
it reports `true` iff at least one job matched; and when it reports `false`
the persisted store is left untouched. -/
theorem remove_job_spec (jobs : List ScheduledJob) (job_id : String)
    (agent_name : Option String) :
    (ScheduleStore.remove_job jobs job_id agent_name).2
        = jobs.filter (fun j => !remove_job_matches job_id agent_name j) ∧
    ((ScheduleStore.remove_job jobs job_id agent_name).1 = true
        ↔ ∃ j ∈ jobs, remove_job_matches job_id agent_name j = true) ∧
    ((ScheduleStore.remove_job jobs job_id agent_name).1 = false →
        remove_job_store_after jobs job_id agent_name = jobs) := by
  refine ⟨?_, ?_, ?_⟩
  · induction jobs with
    | nil => rfl
    | cons job rest ih =>
        by_cases hm : remove_job_matches job_id agent_name job <;>
          simp [ScheduleStore.remove_job, remove_job_loop, hm] at ih ⊢ <;>
          exact ih
  · induction jobs with
    | nil => simp [ScheduleStore.remove_job, remove_job_loop]
    | cons job rest ih =>
        by_cases hm : remove_job_matches job_id agent_name job
        · simp [ScheduleStore.remove_job, remove_job_loop, hm]
        · simp [ScheduleStore.remove_job, remove_job_loop, hm] at ih ⊢
          exact ih
  · intro h
    simp [remove_job_store_after, h]

/-- Concrete instance of `remove_job_spec`: removing an absent id reports
false and leaves the store unchanged. -/
theorem remove_job_spec_witness :
    (ScheduleStore.remove_job
        [ScheduledJob.mk "j1" "alice" "t" "interval" (some 5) none none "r"]
        "nope" none).1 = false ∧
    remove_job_store_after
        [ScheduledJob.mk "j1" "alice" "t" "interval" (some 5) none none "r"]
        "nope" none
      = [ScheduledJob.mk "j1" "alice" "t" "interval" (some 5) none none "r"] :=
  ⟨by decide,
    (remove_job_spec [ScheduledJob.mk "j1" "alice" "t" "interval" (some 5) none none "r"]
      "nope" none).2.2 (by decide)⟩

/-- Model of a Python `datetime`: a day number (days since some epoch, so
calendar arithmetic on months and years is absorbed into `day`) plus
time-of-day fields. -/
structure PyDateTime where
  day : Int
  hour : Nat
  minute : Nat
  second : Nat
  micro : Nat
deriving DecidableEq, Repr

/-- Field bounds every Python datetime satisfies. -/
def PyDateTime.Valid (t : PyDateTime) : Prop :=
  t.hour < 24 ∧ t.minute < 60 ∧ t.second < 60 ∧ t.micro < 1000000

instance (t : PyDateTime) : Decidable t.Valid := by
  unfold PyDateTime.Valid
  exact inferInstance

/-- Absolute time of a datetime in microseconds. -/
def PyDateTime.toMicros (t : PyDateTime) : Int :=
  (((t.day * 24 + (t.hour : Int)) * 60 + (t.minute : Int)) * 60 + (t.second : Int))
      * 1000000 + (t.micro : Int)

/-- Datetime at a given absolute time in microseconds. -/
def PyDateTime.ofMicros (x : Int) : PyDateTime :=
  { day := x / 86400000000
  , hour := ((x % 86400000000) / 3600000000).toNat
  , minute := ((x % 3600000000) / 60000000).toNat
  , second := ((x % 60000000) / 1000000).toNat
  , micro := (x % 1000000).toNat }

/-- Python datetime comparison `a <= b`: lexicographic on the fields. -/
def PyDateTime.le (a b : PyDateTime) : Bool :=
  if a.day = b.day then
    if a.hour = b.hour then
      if a.minute = b.minute then
        if a.second = b.second then decide (a.micro ≤ b.micro)
        else decide (a.second < b.second)
      else decide (a.minute < b.minute)
    else decide (a.hour < b.hour)
  else decide (a.day < b.day)

/-- Python `t + timedelta(minutes=m)`. -/
def PyDateTime.addMinutes (t : PyDateTime) (m : Int) : PyDateTime :=
  PyDateTime.ofMicros (t.toMicros + m * 60000000)

/-- Python `t + timedelta(days=d)`. -/
def PyDateTime.addDays (t : PyDateTime) (d : Int) : PyDateTime :=
  PyDateTime.ofMicros (t.toMicros + d * 86400000000)

/-- Decomposing an absolute time into datetime fields and recomposing is the
identity. -/
theorem toMicros_ofMicros (x : Int) : (PyDateTime.ofMicros x).toMicros = x := by
  unfold PyDateTime.ofMicros PyDateTime.toMicros
  simp only
  omega

/-- The decomposition always yields in-range fields. -/
theorem valid_ofMicros (x : Int) : (PyDateTime.ofMicros x).Valid := by
  unfold PyDateTime.ofMicros PyDateTime.Valid
  refine ⟨?_, ?_, ?_, ?_⟩ <;> simp only <;> omega

/-- Recomposing a valid datetime from its absolute time gives it back. -/
theorem ofMicros_toMicros (t : PyDateTime) (h : t.Valid) :
    PyDateTime.ofMicros t.toMicros = t := by
  obtain ⟨h1, h2, h3, h4⟩ := h
  unfold PyDateTime.ofMicros PyDateTime.toMicros
  obtain ⟨day, hour, minute, second, micro⟩ := t
  simp only [PyDateTime.mk.injEq]
  refine ⟨?_, ?_, ?_, ?_, ?_⟩ <;> simp only at h1 h2 h3 h4 ⊢ <;> omega

/-- On valid datetimes the lexicographic field comparison agrees with
comparison of absolute times. -/
theorem le_iff_toMicros (a b : PyDateTime) (ha : a.Valid) (hb : b.Valid) :
    a.le b = true ↔ a.toMicros ≤ b.toMicros := by
  obtain ⟨ha1, ha2, ha3, ha4⟩ := ha
  obtain ⟨hb1, hb2, hb3, hb4⟩ := hb
  unfold PyDateTime.le PyDateTime.toMicros
  split_ifs with h1 h2 h3 h4 <;> simp only [decide_eq_true_eq] <;> omega

/-- Adding one day to a valid datetime just steps the day field. -/
theorem addDays_one (t : PyDateTime) (h : t.Valid) :
    t.addDays 1 = { t with day := t.day + 1 } := by
  obtain ⟨h1, h2, h3, h4⟩ := h
  unfold PyDateTime.addDays PyDateTime.ofMicros PyDateTime.toMicros
  obtain ⟨day, hour, minute, second, micro⟩ := t
  simp only [PyDateTime.mk.injEq]
  refine ⟨?_, ?_, ?_, ?_, ?_⟩ <;> simp only at h1 h2 h3 h4 ⊢ <;> omega

/-- Whitespace characters as Python recognizes them. -/
def pyIsSpace (c : Char) : Bool :=
  c = ' ' || c = '\t' || c = '\n' || c = '\r' || c = '\x0b' || c = '\x0c'

/-- Helper for `pySplitWs`: `acc` holds the current token reversed. -/
def splitWsAux : List Char → List Char → List (List Char)
  | acc, [] => if acc.isEmpty then [] else [acc.reverse]
  | acc, c :: rest =>
      if pyIsSpace c then
        if acc.isEmpty then splitWsAux [] rest
        else acc.reverse :: splitWsAux [] rest
      else splitWsAux (c :: acc) rest

/-- Python `str.split()` with no separator: split on whitespace runs,
dropping empty pieces. -/
def pySplitWs (l : List Char) : List (List Char) :=
  splitWsAux [] l

/-- Value of a nonempty all-digit character list. -/
def digitsToNat (l : List Char) : Option Nat :=
  if !l.isEmpty && l.all Char.isDigit then
    some (l.foldl (fun acc c => acc * 10 + (c.toNat - 48)) 0)
  else none

/-- Model of Python `int(string)`: surrounding whitespace stripped, one
optional sign, then decimal digits. -/
def pyIntChars (l : List Char) : Option Int :=
  let t := ((l.dropWhile pyIsSpace).reverse.dropWhile pyIsSpace).reverse
  match t with
  | '-' :: rest => (digitsToNat rest).map (fun n => -(n : Int))
  | '+' :: rest => (digitsToNat rest).map (fun n => (n : Int))
  | _ => (digitsToNat t).map (fun n => (n : Int))

/-- Embedding of `_safe_int` (scheduler.py lines 178-184) applied to an
optional string: `None` stays `None`, otherwise `int(...)` or `None`. -/
def safe_int_str (v : Option String) : Option Int :=
  match v with
  | none => none
  | some s => pyIntChars s.data

/-- Python `x or 0` on the result of `_safe_int`. -/
def orZero (v : Option Int) : Int :=
  match v with
  | none => 0
  | some k => if k = 0 then 0 else k

/-- Embedding of `_parse_cron` (scheduler.py lines 169-175): the first two
whitespace-separated fields as minute and hour, defaulting to 0. -/
def parse_cron (expr : String) : Int × Int :=
  let parts := pySplitWs expr.data
  if parts.length < 2 then (0, 0)
  else (orZero (pyIntChars (parts.getD 0 [])), orZero (pyIntChars (parts.getD 1 [])))

/-- Python truthiness of an optional int (`interval_minutes` in the guard of
`_compute_next_run`). -/
def intTruthy : Option Int → Bool
  | none => false
  | some k => k != 0

/-- Python truthiness of an optional string (`cron` in the guard of
`_compute_next_run`). -/
def strTruthy : Option String → Bool
  | none => false
  | some s => !s.data.isEmpty

/-- Model of `current.replace(second=0, microsecond=0, minute=minute,
hour=hour)`: `none` is the `ValueError` raised on out-of-range values. -/
def pyReplace (t : PyDateTime) (minute hour : Int) : Option PyDateTime :=
  if 0 ≤ minute ∧ minute ≤ 59 ∧ 0 ≤ hour ∧ hour ≤ 23 then
    some { t with hour := hour.toNat, minute := minute.toNat, second := 0, micro := 0 }
  else none

/-- Embedding of `_compute_next_run` (scheduler.py lines 151-166) at an
explicit current time; `none` models an uncaught `ValueError`. -/
def compute_next_run (schedule_type : String) (interval_minutes : Option Int)
    (cron : Option String) (now : PyDateTime) : Option PyDateTime :=
  if schedule_type == "interval" && intTruthy interval_minutes then
    some (now.addMinutes ((interval_minutes.getD 0)))
  else if schedule_type == "cron" && strTruthy cron then
    let mh := parse_cron (cron.getD "")
    match pyReplace now mh.1 mh.2 with
    | none => none
    | some cand => some (if cand.le now then cand.addDays 1 else cand)
  else
    some (now.addMinutes 5)

/-- C4: for a cron job whose expression parses to minute M and hour H (both
in range), the next run keeps the current day with hour H, minute M and
seconds and microseconds zeroed, rolled forward by exactly one day when
that candidate is not strictly later than now; concretely, cron "30 14" at
14:00 gives today 14:30 and at 15:00 gives tomorrow 14:30, and fields of
the expression beyond the first two are ignored. -/
theorem cron_next_run :
    (∀ (now : PyDateTime) (im : Option Int) (expr : String) (M H : Int),
      now.Valid → parse_cron expr = (M, H) → expr ≠ "" →
      0 ≤ M → M < 60 → 0 ≤ H → H < 24 →
      compute_next_run "cron" im (some expr) now =
        some (
          if (PyDateTime.mk now.day H.toNat M.toNat 0 0).toMicros ≤ now.toMicros
          then PyDateTime.mk (now.day + 1) H.toNat M.toNat 0 0
          else PyDateTime.mk now.day H.toNat M.toNat 0 0)) ∧
    compute_next_run "cron" none (some "30 14") (PyDateTime.mk 700 14 0 0 0)
      = some (PyDateTime.mk 700 14 30 0 0) ∧
    compute_next_run "cron" none (some "30 14") (PyDateTime.mk 700 15 0 0 0)
      = some (PyDateTime.mk 701 14 30 0 0) ∧
    parse_cron "30 14 1 2 3" = (30, 14) := by
  refine ⟨?_, by decide, by decide, by decide⟩
  intro now im expr M H hv hparse hne hM0 hM hH0 hH
  have hexpr : strTruthy (some expr) = true := by
    cases hdat : expr.data with
    | nil =>
        exact absurd (by cases expr with
          | mk l => simp at hdat; rw [hdat]) hne
    | cons c t => simp [strTruthy, hdat]
  unfold compute_next_run
  simp only [hexpr, Option.getD_some, hparse]
  have hrep : pyReplace now M H
      = some (PyDateTime.mk now.day H.toNat M.toNat 0 0) := by
    unfold pyReplace
    rw [if_pos ⟨hM0, by omega, hH0, by omega⟩]
  rw [show (("cron" == "interval") = false) from rfl]
  simp only [Bool.false_and, Bool.false_eq_true, if_false, Bool.and_self, if_true,
    beq_self_eq_true, Bool.true_and, hrep]
  have hcv : (PyDateTime.mk now.day H.toNat M.toNat 0 0).Valid :=
    ⟨show H.toNat < 24 by omega, show M.toNat < 60 by omega,
      show (0 : Nat) < 60 by omega, show (0 : Nat) < 1000000 by omega⟩
  by_cases hle : (PyDateTime.mk now.day H.toNat M.toNat 0 0).toMicros ≤ now.toMicros
  · rw [if_pos hle,
      if_pos ((le_iff_toMicros _ _ hcv hv).mpr hle),
      addDays_one _ hcv]
  · rw [if_neg hle, if_neg (by
      intro hcon
      exact hle ((le_iff_toMicros _ _ hcv hv).mp hcon))]

/-- Concrete instance of `cron_next_run`: the general clause applied to cron
"30 14" at 14:00 on day 700. -/
theorem cron_next_run_witness :
    (PyDateTime.mk 700 14 0 0 0).Valid ∧
    parse_cron "30 14" = (30, 14) ∧
    compute_next_run "cron" (some 0) (some "30 14") (PyDateTime.mk 700 14 0 0 0) =
      some (
        if (PyDateTime.mk (700 : Int) (14 : Int).toNat (30 : Int).toNat 0 0).toMicros
            ≤ (PyDateTime.mk 700 14 0 0 0).toMicros
        then PyDateTime.mk ((700 : Int) + 1) (14 : Int).toNat (30 : Int).toNat 0 0
        else PyDateTime.mk 700 (14 : Int).toNat (30 : Int).toNat 0 0) :=
  ⟨by decide, by decide,
    cron_next_run.1 (PyDateTime.mk 700 14 0 0 0) (some 0) "30 14" 30 14
      (by decide) (by decide) (by decide) (by decide) (by decide) (by decide) (by decide)⟩

/-- C8 (amended): for an interval job with a non-null, nonzero minute count
m, the next run is exactly now + m minutes of absolute time. -/
theorem interval_next_run (now : PyDateTime) (m : Int) (cron : Option String)
    (hm : m ≠ 0) :
    (compute_next_run "interval" (some m) cron now).map PyDateTime.toMicros
      = some (now.toMicros + m * 60000000) := by
  unfold compute_next_run
  have ht : intTruthy (some m) = true := by
    simp [intTruthy, hm]
  simp only [ht, beq_self_eq_true, Bool.true_and, if_true, Option.getD_some]
  unfold PyDateTime.addMinutes
  simp [toMicros_ofMicros]

/-- Concrete instance of `interval_next_run`: a 10-minute interval at
midnight of day 0 lands 600 seconds later. -/
theorem interval_next_run_witness :
    ((10 : Int) ≠ 0) ∧
    (compute_next_run "interval" (some 10) none (PyDateTime.mk 0 0 0 0 0)).map
        PyDateTime.toMicros
      = some ((PyDateTime.mk 0 0 0 0 0).toMicros + 10 * 60000000) :=
  ⟨by decide, interval_next_run (PyDateTime.mk 0 0 0 0 0) 10 none (by decide)⟩

/-- C8 counterexample to the claim as stated: an interval job whose
interval_minutes is 0 is sent 5 minutes ahead, not 0 minutes ahead, because
`interval_minutes` is tested for Python truthiness, and likewise a null
interval falls back to the 5-minute default. -/
theorem interval_next_run_counterexample :
    compute_next_run "interval" (some 0) none (PyDateTime.mk 0 0 0 0 0)
        ≠ some (PyDateTime.ofMicros ((PyDateTime.mk 0 0 0 0 0).toMicros + 0 * 60000000)) ∧
    compute_next_run "interval" (some 0) none (PyDateTime.mk 0 0 0 0 0)
        = some (PyDateTime.mk 0 0 5 0 0) := by
  refine ⟨by decide, by decide⟩

/-- Scalar values appearing in the YAML job store: strings, ints, null.
`yaml.safe_dump` followed by `yaml.safe_load` is the identity on lists of
records built from these. -/
inductive YamlVal where
  | s (v : String)
  | i (v : Int)
  | null
deriving DecidableEq, Repr

/-- One serialized job record (`job.__dict__`, scheduler.py line 59). -/
structure JobRecord where
  job_id : YamlVal
  agent_name : YamlVal
  task : YamlVal
  schedule_type : YamlVal
  interval_minutes : YamlVal
  cron : YamlVal
  channel_id : YamlVal
  next_run : YamlVal
deriving DecidableEq, Repr

/-- Python `str(...)` on a stored scalar (`str(item.get(...))`,
scheduler.py lines 46-53). -/
def pyStrVal : YamlVal → String
  | YamlVal.s v => v
  | YamlVal.i v => toString v
  | YamlVal.null => "None"

/-- Embedding of `_safe_int` on a stored scalar: ints pass through, strings
are parsed, null gives `None`. -/
def safe_int_val : YamlVal → Option Int
  | YamlVal.s v => pyIntChars v.data
  | YamlVal.i v => some v
  | YamlVal.null => none

/-- Python truthiness of a stored scalar (the `if item.get("cron")` test,
scheduler.py line 51). -/
def yamlTruthy : YamlVal → Bool
  | YamlVal.s v => !v.data.isEmpty
  | YamlVal.i v => v != 0
  | YamlVal.null => false

/-- Serialization of one job (`save_jobs` writes `job.__dict__`). -/
def job_to_record (j : ScheduledJob) : JobRecord :=
  { job_id := YamlVal.s j.job_id
  , agent_name := YamlVal.s j.agent_name
  , task := YamlVal.s j.task
  , schedule_type := YamlVal.s j.schedule_type
  , interval_minutes :=
      match j.interval_minutes with
      | none => YamlVal.null
      | some k => YamlVal.i k
  , cron :=
      match j.cron with
      | none => YamlVal.null
      | some s => YamlVal.s s
  , channel_id :=
      match j.channel_id with
      | none => YamlVal.null
      | some k => YamlVal.i k
  , next_run := YamlVal.s j.next_run }

/-- Deserialization of one record (`load_jobs`, scheduler.py lines 44-55):
strings via `str(...)`, ints via `_safe_int`, cron dropped when falsy. -/
def record_to_job (r : JobRecord) : ScheduledJob :=
  { job_id := pyStrVal r.job_id
  , agent_name := pyStrVal r.agent_name
  , task := pyStrVal r.task
  , schedule_type := pyStrVal r.schedule_type
  , interval_minutes := safe_int_val r.interval_minutes
  , cron := if yamlTruthy r.cron then some (pyStrVal r.cron) else none
  , channel_id := safe_int_val r.channel_id
  , next_run := pyStrVal r.next_run }

/-- Embedding of `ScheduleStore.save_jobs` (scheduler.py lines 58-61) at the
payload level. -/
def save_jobs (jobs : List ScheduledJob) : List JobRecord :=
  jobs.map job_to_record

/-- Embedding of `ScheduleStore.load_jobs` (scheduler.py lines 33-56) on a
stored payload. -/
def load_jobs (payload : List JobRecord) : List ScheduledJob :=
  payload.map record_to_job

/-- A string with an empty character list is the empty string. -/
theorem data_eq_nil (s : String) (hs : s.data = []) : s = "" := by
  cases s with
  | mk l => cases hs; rfl

/-- Round trip on a single well-formed job. -/
theorem record_to_job_job_to_record (j : ScheduledJob) (h : j.cron ≠ some "") :
    record_to_job (job_to_record j) = j := by
  obtain ⟨jid, ag, task, st, im, cr, ch, nr⟩ := j
  cases im <;> cases ch <;> cases cr <;>
    simp [record_to_job, job_to_record, pyStrVal, safe_int_val, yamlTruthy] <;>
    (rename_i s
     intro hd
     exact h (congrArg some (data_eq_nil s hd)))

/-- C5: saving a list of well-formed jobs (cron absent or non-empty) and
loading it back reproduces the same records, field for field, in the same
order. -/
theorem load_save_roundtrip (jobs : List ScheduledJob)
    (h : ∀ j ∈ jobs, j.cron ≠ some "") :
    load_jobs (save_jobs jobs) = jobs := by
  unfold load_jobs save_jobs
  induction jobs with
  | nil => rfl
  | cons j rest ih =>
      have hj : j.cron ≠ some "" := h j (List.mem_cons_self j rest)
      have hrest : ∀ x ∈ rest, x.cron ≠ some "" :=
        fun x hx => h x (List.mem_cons_of_mem j hx)
      simp only [List.map_cons, record_to_job_job_to_record j hj, List.cons.injEq,
        true_and]
      exact ih hrest

/-- Concrete instance of `load_save_roundtrip` on a two-job store. -/
theorem load_save_roundtrip_witness :
    (∀ j ∈ [ScheduledJob.mk "a" "alice" "t1" "interval" (some 10) none (some 7) "r1",
            ScheduledJob.mk "b" "bob" "t2" "cron" none (some "30 14") none "r2"],
        j.cron ≠ some "") ∧
    load_jobs (save_jobs
        [ScheduledJob.mk "a" "alice" "t1" "interval" (some 10) none (some 7) "r1",
         ScheduledJob.mk "b" "bob" "t2" "cron" none (some "30 14") none "r2"])
      = [ScheduledJob.mk "a" "alice" "t1" "interval" (some 10) none (some 7) "r1",
         ScheduledJob.mk "b" "bob" "t2" "cron" none (some "30 14") none "r2"] :=
  ⟨by decide,
    load_save_roundtrip
      [ScheduledJob.mk "a" "alice" "t1" "interval" (some 10) none (some 7) "r1",
       ScheduledJob.mk "b" "bob" "t2" "cron" none (some "30 14") none "r2"]
      (by decide)⟩

/-- Stand-in for `datetime.isoformat()`: an injective textual rendering of
the instant (the code only ever parses this string back, so the exact
format is irrelevant to the claims). -/
def PyDateTime.isoformat (t : PyDateTime) : String :=
  toString t.toMicros

/-- Embedding of `ScheduleStore.add_job` (scheduler.py lines 63-86): the
fresh uuid and the current time are explicit parameters; `none` models an
uncaught `ValueError` from `_compute_next_run` (nothing is saved then). -/
def ScheduleStore.add_job (jobs : List ScheduledJob) (agent_name task schedule_type : String)
    (interval_minutes : Option Int) (cron : Option String) (channel_id : Option Int)
    (new_id : String) (now : PyDateTime) : Option (ScheduledJob × List ScheduledJob) :=
  match compute_next_run schedule_type interval_minutes cron now with
  | none => none
  | some nr =>
      let job : ScheduledJob :=
        { job_id := new_id, agent_name := agent_name, task := task,
          schedule_type := schedule_type, interval_minutes := interval_minutes,
          cron := cron, channel_id := channel_id, next_run := nr.isoformat }
      some (job, jobs ++ [job])

/-- Python `str(x) if x else ""` on an optional string. -/
def pyStrOrEmpty (v : Option String) : String :=
  match v with
  | none => ""
  | some s => if s.data.isEmpty then "" else s

/-- Python `str(x) if x else None` on an optional string. -/
def pyStrOrNone (v : Option String) : Option String :=
  match v with
  | none => none
  | some s => if s.data.isEmpty then none else some s

/-- The `task` parameter of `_handle_schedule` (executor.py line 49). -/
def sched_param_task (params : List (String × String)) : String :=
  pyStrOrEmpty (dictGet params "task")

/-- The `schedule_type` parameter of `_handle_schedule` (executor.py line
50). -/
def sched_param_type (params : List (String × String)) : String :=
  pyStrOrEmpty (dictGet params "type")

/-- The `cron` parameter of `_handle_schedule` (executor.py line 52). -/
def sched_param_cron (params : List (String × String)) : Option String :=
  pyStrOrNone (dictGet params "cron")

/-- The `action` parameter of `_handle_schedule` (executor.py line 54):
`str(params.get("action") or "").lower()`. -/
def sched_param_action (params : List (String × String)) : String :=
  String.mk ((pyStrOrEmpty (dictGet params "action")).data.map Char.toLower)

/-- Result of `_handle_schedule`: `failure` is `return None`, `raised` is an
uncaught exception, the others are the structured status dicts. -/
inductive ScheduleOutcome where
  | failure
  | raised
  | listing (jobs : List ScheduledJob)
  | deletion (ok : Bool) (job_id : String)
  | scheduled (job : ScheduledJob)
deriving DecidableEq, Repr

/-- Embedding of `ToolExecutor._handle_schedule` (executor.py lines 46-79)
together with the store contents it leaves behind. -/
def handle_schedule (store : List ScheduledJob) (agent_name : String)
    (params : List (String × String)) (new_id : String) (now : PyDateTime) :
    ScheduleOutcome × List ScheduledJob :=
  let task := sched_param_task params
  let schedule_type := sched_param_type params
  let interval := dictGet params "interval_minutes"
  let cron := sched_param_cron params
  let channel_id := dictGet params "channel_id"
  let action := sched_param_action params
  if action == "list" then
    (ScheduleOutcome.listing (store.filter (fun j => j.agent_name == agent_name)), store)
  else if action == "delete" then
    let job_id := pyStrOrEmpty (dictGet params "job_id")
    if job_id == "" then (ScheduleOutcome.failure, store)
    else
      let r := ScheduleStore.remove_job store job_id (some agent_name)
      (ScheduleOutcome.deletion r.1 job_id, if r.1 then r.2 else store)
  else if task == "" || !(schedule_type == "interval" || schedule_type == "cron") then
    (ScheduleOutcome.failure, store)
  else
    match ScheduleStore.add_job store agent_name task schedule_type
        (safe_int_str interval) cron (safe_int_str channel_id) new_id now with
    | none => (ScheduleOutcome.raised, store)
    | some r => (ScheduleOutcome.scheduled r.1, r.2)

/-- C7 (amended): the write action fails (null result, store untouched) iff
the task text is empty or the recurrence kind is outside interval and cron;
when those two checks pass and the next-run computation returns, a job is
appended regardless of whether an interval minute count or a cron
expression was supplied. -/
theorem handle_schedule_write_spec (store : List ScheduledJob)
    (agent new_id : String) (params : List (String × String)) (now : PyDateTime)
    (hl : sched_param_action params ≠ "list")
    (hd : sched_param_action params ≠ "delete") :
    ((sched_param_task params = "" ∨
        (sched_param_type params ≠ "interval" ∧ sched_param_type params ≠ "cron")) →
      handle_schedule store agent params new_id now = (ScheduleOutcome.failure, store)) ∧
    (∀ nr : PyDateTime, sched_param_task params ≠ "" →
      (sched_param_type params = "interval" ∨ sched_param_type params = "cron") →
      compute_next_run (sched_param_type params)
          (safe_int_str (dictGet params "interval_minutes"))
          (sched_param_cron params) now = some nr →
      handle_schedule store agent params new_id now
        = (ScheduleOutcome.scheduled
              (ScheduledJob.mk new_id agent (sched_param_task params)
                (sched_param_type params)
                (safe_int_str (dictGet params "interval_minutes"))
                (sched_param_cron params)
                (safe_int_str (dictGet params "channel_id")) nr.isoformat),
            store ++ [ScheduledJob.mk new_id agent (sched_param_task params)
                (sched_param_type params)
                (safe_int_str (dictGet params "interval_minutes"))
                (sched_param_cron params)
                (safe_int_str (dictGet params "channel_id")) nr.isoformat])) := by
  constructor
  · intro hcase
    unfold handle_schedule
    rw [if_neg (by simpa using hl), if_neg (by simpa using hd)]
    rcases hcase with h | ⟨h1, h2⟩
    · rw [if_pos (by simp [h])]
    · rw [if_pos (by simp [h1, h2])]
  · intro nr htask htype hnext
    unfold handle_schedule
    rw [if_neg (by simpa using hl), if_neg (by simpa using hd)]
    rw [if_neg (by
      rcases htype with h | h <;> simp [h, htask])]
    unfold ScheduleStore.add_job
    rw [hnext]

/-- Concrete instance of `handle_schedule_write_spec`: a write without any
recurrence parameters beyond the kind still succeeds. -/
theorem handle_schedule_write_spec_witness :
    sched_param_action [("task", "t"), ("type", "interval")] ≠ "list" ∧
    sched_param_task [("task", "t"), ("type", "interval")] ≠ "" ∧
    handle_schedule [] "alice" [("task", "t"), ("type", "interval")] "id1"
        (PyDateTime.mk 0 0 0 0 0)
      = (ScheduleOutcome.scheduled
            (ScheduledJob.mk "id1" "alice" (sched_param_task [("task", "t"), ("type", "interval")])
              (sched_param_type [("task", "t"), ("type", "interval")])
              (safe_int_str (dictGet [("task", "t"), ("type", "interval")] "interval_minutes"))
              (sched_param_cron [("task", "t"), ("type", "interval")])
              (safe_int_str (dictGet [("task", "t"), ("type", "interval")] "channel_id"))
              (PyDateTime.mk 0 0 5 0 0).isoformat),
          [] ++ [ScheduledJob.mk "id1" "alice"
              (sched_param_task [("task", "t"), ("type", "interval")])
              (sched_param_type [("task", "t"), ("type", "interval")])
              (safe_int_str (dictGet [("task", "t"), ("type", "interval")] "interval_minutes"))
              (sched_param_cron [("task", "t"), ("type", "interval")])
              (safe_int_str (dictGet [("task", "t"), ("type", "interval")] "channel_id"))
              (PyDateTime.mk 0 0 5 0 0).isoformat]) :=
  ⟨by decide, by decide,
    (handle_schedule_write_spec [] "alice" "id1" [("task", "t"), ("type", "interval")]
        (PyDateTime.mk 0 0 0 0 0) (by decide) (by decide)).2
      (PyDateTime.mk 0 0 5 0 0) (by decide) (by decide) (by decide)⟩

/-- C7 counterexample to the claim as stated: a write request of interval
kind with no minute count at all (so certainly no positive one) still adds
a job to the store instead of failing. -/
theorem handle_schedule_counterexample :
    safe_int_str (dictGet [("task", "t"), ("type", "interval")] "interval_minutes")
        = none ∧
    (handle_schedule [] "alice" [("task", "t"), ("type", "interval")] "id1"
        (PyDateTime.mk 0 0 0 0 0)).2.length = 1 ∧
    (handle_schedule [] "alice" [("task", "t"), ("type", "interval")] "id1"
        (PyDateTime.mk 0 0 0 0 0)).1
      = ScheduleOutcome.scheduled
          (ScheduledJob.mk "id1" "alice" "t" "interval" none none none
            (PyDateTime.mk 0 0 5 0 0).isoformat) := by
  refine ⟨by decide, by decide, by decide⟩

/-- Case-insensitive match of a pattern literal at the head of the input,
returning the rest (re.IGNORECASE semantics of `\[TOOL:` etc.). -/
def ciLit : List Char → List Char → Option (List Char)
  | [], s => some s
  | _ :: _, [] => none
  | c :: cs, h :: hs => if c.toLower == h.toLower then ciLit cs hs else none

/-- Consume up to the first occurrence of `stop`, failing when `stop` never
occurs; returns the segment before `stop` and the rest after it. This is
the deterministic effect of a greedy `[^stop]+` (or `\s*[^stop]+\s*`)
followed by the literal `stop`, since the class can never cross `stop`. -/
def grabTo (stop : Char) : List Char → Option (List Char × List Char)
  | [] => none
  | c :: rest =>
      if c == stop then some ([], rest)
      else
        match grabTo stop rest with
        | none => none
        | some (seg, r) => some (c :: seg, r)

/-- Captured group of `\s*(C+)` over a segment delimited by the stop
character, with backtracking semantics: the greedy `\s*` yields the
segment minus leading whitespace; an all-whitespace segment backtracks to
leave one character for `C+`; an empty segment cannot match `C+`. -/
def groupOf (seg : List Char) : Option (List Char) :=
  match seg.dropWhile pyIsSpace with
  | [] =>
      match seg.reverse with
      | [] => none
      | c :: _ => some [c]
  | g => some g

/-- Match `\s*` followed by a case-insensitive literal whose first character
is not whitespace: the greedy whitespace run is committed, then the literal
must follow. -/
def wsLit (lit s : List Char) : Option (List Char) :=
  ciLit lit (s.dropWhile pyIsSpace)

/-- Match of the tool-call pattern
`\[TOOL:\s*([^|]+)\s*\|\s*action:\s*([^|]+)\s*\|\s*params:\s*([^\]]+)\]`
(agent.py lines 133-138) anchored at the start of the input, yielding the
three captured groups. -/
def toolMatchAt (s : List Char) : Option (List Char × List Char × List Char) :=
  match ciLit "[tool:".data s with
  | none => none
  | some r0 =>
      match grabTo '|' r0 with
      | none => none
      | some (seg1, r1) =>
          match groupOf seg1 with
          | none => none
          | some g1 =>
              match wsLit "action:".data r1 with
              | none => none
              | some r2 =>
                  match grabTo '|' r2 with
                  | none => none
                  | some (seg2, r3) =>
                      match groupOf seg2 with
                      | none => none
                      | some g2 =>
                          match wsLit "params:".data r3 with
                          | none => none
                          | some r4 =>
                              match grabTo ']' r4 with
                              | none => none
                              | some (seg3, _) =>
                                  match groupOf seg3 with
                                  | none => none
                                  | some g3 => some (g1, g2, g3)

/-- `re.search`: try the pattern at every start position, leftmost match
wins. -/
def toolSearch : List Char → Option (List Char × List Char × List Char)
  | [] => toolMatchAt []
  | c :: rest =>
      match toolMatchAt (c :: rest) with
      | some r => some r
      | none => toolSearch rest

/-- Python `str.strip()` on a character list. -/
def pyStrip (l : List Char) : List Char :=
  ((l.dropWhile pyIsSpace).reverse.dropWhile pyIsSpace).reverse

/-- Python `str.lower()` on a character list. -/
def pyLower (l : List Char) : List Char :=
  l.map Char.toLower

/-- Python `raw.split(",")`: split at every comma, keeping empty pieces. -/
def splitOnComma : List Char → List (List Char)
  | [] => [[]]
  | c :: rest =>
      if c == ',' then [] :: splitOnComma rest
      else
        match splitOnComma rest with
        | [] => [[c]]
        | t :: ts => (c :: t) :: ts

/-- Python `item.split("=", 1)` when `=` occurs: the part before the first
`=` and the part after it; `none` when `=` does not occur. -/
def splitEq : List Char → Option (List Char × List Char)
  | [] => none
  | c :: rest =>
      if c == '=' then some ([], rest)
      else
        match splitEq rest with
        | none => none
        | some (k, v) => some (c :: k, v)

/-- Loop body of `Agent._parse_params` (agent.py lines 150-157): skip items
without `=`, strip key and value, skip empty keys, assign into the dict. -/
def paramsStep (d : List (String × String)) (item : List Char) : List (String × String) :=
  match splitEq item with
  | none => d
  | some (k, v) =>
      let key := pyStrip k
      let value := pyStrip v
      if key.isEmpty then d else dictInsert d (String.mk key) (String.mk value)

/-- Accumulation of `_parse_params` over the already-split items. -/
def parse_params_items (items : List (List Char)) : List (String × String) :=
  items.foldl paramsStep []

/-- Embedding of `Agent._parse_params` (agent.py lines 147-158). -/
def parse_params (raw : List Char) : List (String × String) :=
  parse_params_items (splitOnComma raw)

/-- Parsed tool-call request (the dict built at agent.py line 145). -/
structure ToolCallReq where
  tool_name : String
  action : String
  params : List (String × String)
deriving DecidableEq, Repr

/-- Embedding of `Agent._parse_tool_call` (agent.py lines 132-145). -/
def parse_tool_call (response : String) : Option ToolCallReq :=
  match toolSearch response.data with
  | none => none
  | some (g1, g2, g3) =>
      some { tool_name := String.mk (pyStrip g1)
           , action := String.mk (pyLower (pyStrip g2))
           , params := parse_params g3 }

/-- An item with no equals sign fails the first-equals split. -/
theorem splitEq_eq_none_of_not_mem (item : List Char) (h : '=' ∉ item) :
    splitEq item = none := by
  induction item with
  | nil => rfl
  | cons c rest ih =>
      have hc : c ≠ '=' := fun hcon => h (hcon ▸ List.mem_cons_self c rest)
      have hrest : '=' ∉ rest := fun hcon => h (List.mem_cons_of_mem c hcon)
      unfold splitEq
      rw [if_neg (by simpa using hc), ih hrest]

/-- Splitting at the first equals sign of `k ++ "=" ++ v` recovers `k` and
`v` when `k` itself has no equals sign. -/
theorem splitEq_append (k v : List Char) (h : '=' ∉ k) :
    splitEq (k ++ '=' :: v) = some (k, v) := by
  induction k with
  | nil => rfl
  | cons c rest ih =>
      have hc : c ≠ '=' := fun hcon => h (hcon ▸ List.mem_cons_self c rest)
      have hrest : '=' ∉ rest := fun hcon => h (List.mem_cons_of_mem c hcon)
      show splitEq (c :: (rest ++ '=' :: v)) = some (c :: rest, v)
      unfold splitEq
      rw [if_neg (by simpa using hc), ih hrest]

/-- The search returns nothing exactly when the pattern matches at no start
position. -/
theorem toolSearch_eq_none_iff (l : List Char) :
    toolSearch l = none ↔ ∀ i, toolMatchAt (l.drop i) = none := by
  induction l with
  | nil =>
      constructor
      · intro h i
        rw [List.drop_nil]
        exact h
      · intro h
        exact h 0
  | cons c rest ih =>
      constructor
      · intro h i
        cases hm : toolMatchAt (c :: rest) with
        | some r => rw [toolSearch, hm] at h; exact absurd h (by simp)
        | none =>
            rw [toolSearch, hm] at h
            cases i with
            | zero => exact hm
            | succ j => exact (ih.mp h) j
      · intro h
        have h0 : toolMatchAt (c :: rest) = none := h 0
        rw [toolSearch, h0]
        exact ih.mpr (fun i => h (i + 1))

/-- C2: the example tool-call text parses to the expected request (tool
trimmed, action trimmed and lower-cased, parameters split and trimmed);
params entries lacking an equals sign are dropped without affecting the
rest; a later occurrence of a key overrides earlier ones, with key and
value stripped of surrounding whitespace; and parsing yields no tool call
exactly when the bracketed pattern matches nowhere in the text. -/
theorem parse_tool_call_spec :
    parse_tool_call "[TOOL: gmail | action: send | params: to=a@b.com, subject=Hi]"
        = some (ToolCallReq.mk "gmail" "send" [("to", "a@b.com"), ("subject", "Hi")]) ∧
    parse_tool_call "[tool: Gmail | action: SEND | params: x=1]"
        = some (ToolCallReq.mk "Gmail" "send" [("x", "1")]) ∧
    (∀ (pre post : List (List Char)) (item : List Char), '=' ∉ item →
      parse_params_items (pre ++ item :: post) = parse_params_items (pre ++ post)) ∧
    (∀ (items : List (List Char)) (k v : List Char),
      '=' ∉ k → (pyStrip k).isEmpty = false →
      dictGet (parse_params_items (items ++ [k ++ '=' :: v])) (String.mk (pyStrip k))
        = some (String.mk (pyStrip v))) ∧
    (∀ s : String, parse_tool_call s = none ↔ ∀ i, toolMatchAt (s.data.drop i) = none) := by
  refine ⟨by decide, by decide, ?_, ?_, ?_⟩
  · intro pre post item h
    unfold parse_params_items
    rw [List.foldl_append, List.foldl_append]
    show List.foldl paramsStep
        (paramsStep (List.foldl paramsStep [] pre) item) post = _
    rw [show paramsStep (List.foldl paramsStep [] pre) item
          = List.foldl paramsStep [] pre by
        unfold paramsStep
        rw [splitEq_eq_none_of_not_mem item h]]
  · intro items k v hk hne
    unfold parse_params_items
    rw [List.foldl_append]
    show dictGet (paramsStep (List.foldl paramsStep [] items) (k ++ '=' :: v)) _ = _
    unfold paramsStep
    rw [splitEq_append k v hk]
    simp only [hne, Bool.false_eq_true, if_false]
    exact dictGet_dictInsert_self _ _ _
  · intro s
    unfold parse_tool_call
    cases hs : toolSearch s.data with
    | none => simpa using (toolSearch_eq_none_iff s.data).mp hs
    | some r =>
        obtain ⟨g1, g2, g3⟩ := r
        simp only [reduceCtorEq, false_iff, not_forall]
        have hne : ¬ ∀ i, toolMatchAt (s.data.drop i) = none := by
          intro hall
          rw [(toolSearch_eq_none_iff s.data).mpr hall] at hs
          exact absurd hs (by simp)
        exact not_forall.mp hne

/-- Concrete instance of `parse_tool_call_spec`: the entry "foo" is dropped,
and a duplicate key " b " wins with key and value trimmed. -/
theorem parse_tool_call_spec_witness :
    ('=' ∉ "foo".data) ∧
    parse_params_items ["a=1".data, "foo".data] = parse_params_items ["a=1".data] ∧
    ('=' ∉ " b ".data) ∧ (pyStrip " b ".data).isEmpty = false ∧
    dictGet (parse_params_items (["b=0".data] ++ [" b ".data ++ '=' :: " 2 ".data]))
        (String.mk (pyStrip " b ".data))
      = some (String.mk (pyStrip " 2 ".data)) :=
  ⟨by decide,
    parse_tool_call_spec.2.2.1 ["a=1".data] [] "foo".data (by decide),
    by decide, by decide,
    parse_tool_call_spec.2.2.2.1 ["b=0".data] " b ".data " 2 ".data
      (by decide) (by decide)⟩

end Hive
